import Mathlib

/-!
Verification of the srsUE LTE stack executor (`srsue/src/stack/ue_stack_lte.cc`).

The translation unit is a task-dispatching execution core: foreign threads
(radio-sync, IP gateway, arbitrary callers) enqueue closures onto a
multi-queue dispatcher; a single stack thread drains and runs them.  The
protocol layers (MAC, RLC, PDCP, RRC, NAS, USIM) and the pcap writers are
external collaborators, so the observable behaviour of each method of
`ue_stack_lte` is the sequence of boundary calls it makes, plus the values
it returns.  We embed each method as a function producing that call trace
(`Event` list) together with its return value, and prove the spec's claims
about those traces.
-/

namespace UeStackLte

/-- Boundary calls made by `ue_stack_lte` into its collaborator layers,
as observed in `ue_stack_lte.cc`.  `macRunTti t` is `mac.run_tti(t)`;
`timersStepAll` is `timers.step_all()`; `rrcRunTti`/`nasRunTti` are the
per-batch hooks `rrc.run_tti()`/`nas.run_tti()`; the `*Init`/`*Stop`
events are the wiring and teardown calls of `init`/`stop_impl`;
`setRunning b` records an assignment to the `running` flag;
`startThread` is `start(STACK_MAIN_THREAD_PRIO)`; the pcap events are
the open/close calls on the capture sinks. -/
inductive Event where
  | macRunTti (tti : Nat)
  | timersStepAll
  | rrcRunTti
  | nasRunTti
  | usimInit
  | macInit
  | rlcInit
  | pdcpInit
  | nasInit
  | rrcInit
  | setRunning (b : Bool)
  | startThread
  | usimStop
  | nasStop
  | rrcStop
  | rlcStop
  | pdcpStop
  | macStop
  | macPcapOpen
  | nasPcapOpen
  | macPcapClose
  | nasPcapClose
  deriving DecidableEq, Repr

/-- Modelled from the spec: the tick space is the LTE TTI range of 10240
ticks, and the `TTI_SUB(a, b)` macro used by `run_tti_impl` (defined in a
common header outside the excerpt) is subtraction modulo that tick space. -/
def TTI_SUB (a b : Nat) : Nat := (a + 10240 - b) % 10240

/-- Trace of the sub-tick loop of `run_tti_impl` (lines 292-296): for
`i = 0 .. tti_jump - 1` it calls `mac.run_tti(TTI_SUB(tti, tti_jump - i - 1))`
and then `timers.step_all()`. -/
def subTickEvents (tti tti_jump : Nat) : List Event :=
  ((List.range tti_jump).map fun i =>
    [Event.macRunTti (TTI_SUB tti (tti_jump - i - 1)), Event.timersStepAll]).flatten

/-- Trace of `ue_stack_lte::run_tti_impl(tti, tti_jump)` (lines 284-313):
the sub-tick loop, then `rrc.run_tti()` and `nas.run_tti()` once for the
batch.  The TTI profiler and the queue-backlog warning only log; they make
no collaborator calls and are omitted from the trace. -/
def run_tti_impl (tti tti_jump : Nat) : List Event :=
  subTickEvents tti tti_jump ++ [Event.rrcRunTti, Event.nasRunTti]

/-- Projection extracting the argument of a `mac.run_tti` call. -/
def macArg : Event → Option Nat
  | Event.macRunTti t => some t
  | _ => none

theorem subTickEvents_gen_shift (t n : Nat) :
    (List.map Nat.succ (List.range n)).map
      (fun i => [Event.macRunTti (TTI_SUB t (n + 1 - i - 1)), Event.timersStepAll])
      = (List.range n).map
      (fun i => [Event.macRunTti (TTI_SUB t (n - i - 1)), Event.timersStepAll]) := by
  rw [List.map_map]
  refine List.map_congr_left fun i _ => ?_
  have h : n + 1 - Nat.succ i - 1 = n - i - 1 := by omega
  simp [Function.comp, h]

theorem subTickEvents_filterMap_macArg (t : Nat) :
    ∀ n : Nat, (subTickEvents t n).filterMap macArg
      = (List.range n).map fun i => TTI_SUB t (n - 1 - i) := by
  intro n
  induction n with
  | zero => simp [subTickEvents]
  | succ n ih =>
    have hgen2 : (List.map Nat.succ (List.range n)).map
        (fun i => TTI_SUB t (n + 1 - 1 - i))
        = (List.range n).map (fun i => TTI_SUB t (n - 1 - i)) := by
      rw [List.map_map]
      refine List.map_congr_left fun i _ => ?_
      simp only [Function.comp_apply]
      congr 1
      omega
    rw [subTickEvents, List.range_succ_eq_map,
      List.map_cons, List.map_cons, subTickEvents_gen_shift, hgen2, List.flatten_cons,
      List.filterMap_append, ← subTickEvents, ih]
    simp [macArg]

theorem subTickEvents_countP_step (t : Nat) :
    ∀ n : Nat, (subTickEvents t n).countP (fun e => e == Event.timersStepAll) = n := by
  intro n
  induction n with
  | zero => simp [subTickEvents]
  | succ n ih =>
    rw [subTickEvents, List.range_succ_eq_map, List.map_cons,
      subTickEvents_gen_shift, List.flatten_cons, List.countP_append, ← subTickEvents, ih]
    simp
    omega

theorem subTickEvents_countP_batch (t : Nat) (p : Event → Bool)
    (hmac : ∀ x, p (Event.macRunTti x) = false) (hstep : p Event.timersStepAll = false) :
    ∀ n : Nat, (subTickEvents t n).countP p = 0 := by
  intro n
  induction n with
  | zero => simp [subTickEvents]
  | succ n ih =>
    rw [subTickEvents, List.range_succ_eq_map, List.map_cons,
      subTickEvents_gen_shift, List.flatten_cons, List.countP_append, ← subTickEvents, ih]
    simp [List.countP_cons, hmac, hstep]

/-- C1: a batch `run_tti_impl(t, n)` performs exactly `n` sub-ticks — the
`i`-th calls `mac.run_tti` with tick value `t - (n - 1 - i)` modulo the
tick space and is followed by one `timers.step_all()` — and after the
sub-tick loop the per-batch hooks `rrc.run_tti()` and `nas.run_tti()` each
run exactly once, regardless of `n`. -/
theorem run_tti_impl_subtick_batch (t n : Nat) :
    run_tti_impl t n = subTickEvents t n ++ [Event.rrcRunTti, Event.nasRunTti] ∧
    (subTickEvents t n).filterMap macArg
      = (List.range n).map (fun i => TTI_SUB t (n - 1 - i)) ∧
    ((subTickEvents t n).filterMap macArg).length = n ∧
    (subTickEvents t n).countP (fun e => e == Event.timersStepAll) = n ∧
    (subTickEvents t n).countP (fun e => e == Event.rrcRunTti) = 0 ∧
    (subTickEvents t n).countP (fun e => e == Event.nasRunTti) = 0 ∧
    (run_tti_impl t n).countP (fun e => e == Event.rrcRunTti) = 1 ∧
    (run_tti_impl t n).countP (fun e => e == Event.nasRunTti) = 1 := by
  have h1 := subTickEvents_filterMap_macArg t n
  have h2 := subTickEvents_countP_step t n
  have h3 := subTickEvents_countP_batch t (fun e => e == Event.rrcRunTti)
    (fun x => by simp) (by simp) n
  have h4 := subTickEvents_countP_batch t (fun e => e == Event.nasRunTti)
    (fun x => by simp) (by simp) n
  refine ⟨rfl, h1, ?_, h2, h3, h4, ?_, ?_⟩
  · rw [h1]; simp
  · rw [run_tti_impl, List.countP_append, h3]; simp
  · rw [run_tti_impl, List.countP_append, h4]; simp

/-- Restriction of a trace to the per-sub-tick effects: the `mac.run_tti`
calls and the `timers.step_all` calls, in order. -/
def macTimerTrace (l : List Event) : List Event :=
  l.filter fun e => (macArg e).isSome || e == Event.timersStepAll

/-- C3 counterexample: three unit calls and one jump-3 call do not produce
the same trace — the per-batch hooks `rrc.run_tti`/`nas.run_tti` run three
times in the sequential case but once in the batched case. -/
theorem run_tti_batching_counterexample :
    (run_tti_impl 1 1 ++ run_tti_impl 2 1 ++ run_tti_impl 3 1).countP
        (fun e => e == Event.rrcRunTti) = 3 ∧
    (run_tti_impl 3 3).countP (fun e => e == Event.rrcRunTti) = 1 ∧
    (run_tti_impl 1 1 ++ run_tti_impl 2 1 ++ run_tti_impl 3 1).countP
        (fun e => e == Event.nasRunTti) = 3 ∧
    (run_tti_impl 3 3).countP (fun e => e == Event.nasRunTti) = 1 ∧
    run_tti_impl 1 1 ++ run_tti_impl 2 1 ++ run_tti_impl 3 1 ≠ run_tti_impl 3 3 := by
  decide

theorem run_tti_impl_one_trace (x : Nat) :
    macTimerTrace (run_tti_impl x 1) = [Event.macRunTti (TTI_SUB x 0), Event.timersStepAll] := by
  have hrange1 : List.range 1 = [0] := by decide
  simp [run_tti_impl, subTickEvents, macTimerTrace, macArg, hrange1]

theorem run_tti_impl_three_trace (x : Nat) :
    macTimerTrace (run_tti_impl x 3)
      = [Event.macRunTti (TTI_SUB x 2), Event.timersStepAll,
         Event.macRunTti (TTI_SUB x 1), Event.timersStepAll,
         Event.macRunTti (TTI_SUB x 0), Event.timersStepAll] := by
  have hrange3 : List.range 3 = [0, 1, 2] := by decide
  simp [run_tti_impl, subTickEvents, macTimerTrace, macArg, hrange3]

theorem run_tti_impl_countP_rrc (x n : Nat) :
    (run_tti_impl x n).countP (fun e => e == Event.rrcRunTti) = 1 := by
  rw [run_tti_impl, List.countP_append,
    subTickEvents_countP_batch x _ (fun y => by simp) (by simp) n]
  simp [List.countP_cons]

theorem run_tti_impl_countP_nas (x n : Nat) :
    (run_tti_impl x n).countP (fun e => e == Event.nasRunTti) = 1 := by
  rw [run_tti_impl, List.countP_append,
    subTickEvents_countP_batch x _ (fun y => by simp) (by simp) n]
  simp [List.countP_cons]

/-- C3 (amended): the sequential calls `run_tti_impl (t-2) 1`,
`run_tti_impl (t-1) 1`, `run_tti_impl t 1` produce exactly the same MAC
hook invocations and timer steps, in the same order, as the single batched
call `run_tti_impl t 3`; the per-batch hooks `rrc.run_tti`/`nas.run_tti`
however run once per call — three times sequentially versus once batched. -/
theorem run_tti_batching_equiv (t : Nat) (h : 2 ≤ t) :
    macTimerTrace (run_tti_impl (t - 2) 1 ++ run_tti_impl (t - 1) 1 ++ run_tti_impl t 1)
      = macTimerTrace (run_tti_impl t 3) ∧
    (run_tti_impl (t - 2) 1 ++ run_tti_impl (t - 1) 1 ++ run_tti_impl t 1).countP
        (fun e => e == Event.rrcRunTti) = 3 ∧
    (run_tti_impl t 3).countP (fun e => e == Event.rrcRunTti) = 1 ∧
    (run_tti_impl (t - 2) 1 ++ run_tti_impl (t - 1) 1 ++ run_tti_impl t 1).countP
        (fun e => e == Event.nasRunTti) = 3 ∧
    (run_tti_impl t 3).countP (fun e => e == Event.nasRunTti) = 1 := by
  refine ⟨?_, ?_, run_tti_impl_countP_rrc t 3, ?_, run_tti_impl_countP_nas t 3⟩
  · have hsplit :
        macTimerTrace (run_tti_impl (t - 2) 1 ++ run_tti_impl (t - 1) 1 ++ run_tti_impl t 1)
          = macTimerTrace (run_tti_impl (t - 2) 1) ++ macTimerTrace (run_tti_impl (t - 1) 1)
            ++ macTimerTrace (run_tti_impl t 1) := by
      simp [macTimerTrace]
    rw [hsplit, run_tti_impl_one_trace, run_tti_impl_one_trace, run_tti_impl_one_trace,
      run_tti_impl_three_trace]
    simp [TTI_SUB]
    omega
  · rw [List.countP_append, List.countP_append, run_tti_impl_countP_rrc,
      run_tti_impl_countP_rrc, run_tti_impl_countP_rrc]
  · rw [List.countP_append, List.countP_append, run_tti_impl_countP_nas,
      run_tti_impl_countP_nas, run_tti_impl_countP_nas]

/-- C3 witness for the amended equivalence, at tick 7. -/
theorem run_tti_batching_equiv_witness :
    2 ≤ 7 ∧
    macTimerTrace (run_tti_impl 5 1 ++ run_tti_impl 6 1 ++ run_tti_impl 7 1)
      = macTimerTrace (run_tti_impl 7 3) :=
  ⟨by decide, (run_tti_batching_equiv 7 (by decide)).1⟩

/-- Capacity of the task dispatcher queues: `pending_tasks(512)` in the
constructor (line 46). -/
def queue_capacity : Nat := 512

/-- An uplink task bound by `write_sdu`: it captures the logical channel
id, the moved SDU payload, and the blocking flag, all forwarded to
`pdcp.write_sdu` when the executor runs the task. -/
structure SduTask where
  lcid : Nat
  sdu : List Nat
  blocking : Bool
  deriving DecidableEq, Repr

/-- Non-blocking push of the multiqueue dispatcher (`try_push`): appends
the task and reports success when the queue is below capacity, otherwise
leaves the queue unchanged and reports failure. -/
def try_push (q : List α) (t : α) : List α × Bool :=
  if q.length < queue_capacity then (q ++ [t], true) else (q, false)

/-- Embedding of `ue_stack_lte::write_sdu(lcid, sdu, blocking)`
(lines 251-260): it always uses the non-blocking `try_push` on the gw
queue, and on failure logs a warning and discards the SDU.  Returns the
resulting gw queue and whether the SDU was discarded. -/
def write_sdu (gw_queue : List SduTask) (lcid : Nat) (sdu : List Nat) (blocking : Bool) :
    List SduTask × Bool :=
  let r := try_push gw_queue ⟨lcid, sdu, blocking⟩
  (r.1, !r.2)

/-- A gw queue filled to capacity. -/
def fullGwQueue : List SduTask := List.replicate queue_capacity ⟨0, [], false⟩

/-- C2 counterexample: with the gw queue full and `blocking = true`, the
SDU is still discarded (the caller does not wait for queue space), contrary
to the claim that the blocking path never drops the payload. -/
theorem write_sdu_blocking_counterexample :
    (write_sdu fullGwQueue 3 [7] true).2 = true ∧
    (write_sdu fullGwQueue 3 [7] true).1 = fullGwQueue := by
  have hlen : fullGwQueue.length = queue_capacity := by
    rw [fullGwQueue, List.length_replicate]
  have hred : write_sdu fullGwQueue 3 [7] true = (fullGwQueue, true) := by
    rw [write_sdu, try_push, hlen, if_neg (Nat.lt_irrefl queue_capacity)]
    rfl
  rw [hred]
  exact ⟨rfl, rfl⟩

/-- C2 (amended): `write_sdu` submits via the non-blocking push for both
values of `blocking`: on a full gw queue the payload is dropped with a
warning and the queue is left unchanged; below capacity the task (carrying
the blocking flag onward to the PDCP layer) is appended and nothing is
dropped. -/
theorem write_sdu_backpressure (q : List SduTask) (lcid : Nat) (sdu : List Nat)
    (blocking : Bool) :
    (queue_capacity ≤ q.length → write_sdu q lcid sdu blocking = (q, true)) ∧
    (q.length < queue_capacity →
      write_sdu q lcid sdu blocking = (q ++ [⟨lcid, sdu, blocking⟩], false)) := by
  constructor <;> intro h
  · have hnot : ¬ q.length < queue_capacity := by omega
    rw [write_sdu, try_push, if_neg hnot]
    rfl
  · rw [write_sdu, try_push, if_pos h]
    rfl

/-- C2 witness: the amended behaviour at a full queue and at the empty
queue. -/
theorem write_sdu_backpressure_witness :
    (queue_capacity ≤ fullGwQueue.length ∧ write_sdu fullGwQueue 1 [2] false = (fullGwQueue, true)) ∧
    (([] : List SduTask).length < queue_capacity ∧
      write_sdu [] 1 [2] true = ([⟨1, [2], true⟩], false)) := by
  have hfull : queue_capacity ≤ fullGwQueue.length := by
    simp [fullGwQueue]
  have hempty : ([] : List SduTask).length < queue_capacity := by
    simp [queue_capacity]
  exact ⟨⟨hfull, (write_sdu_backpressure fullGwQueue 1 [2] false).1 hfull⟩,
    ⟨hempty, (write_sdu_backpressure [] 1 [2] true).2 hempty⟩⟩

/-- Timeout of the graceful-detach poll loop: `timeout = 5000` (1 ms polls,
line 183). -/
def detach_timeout : Nat := 5000

/-- Poll loop of `ue_stack_lte::switch_off` (line 185):
`while (rlc.has_data(SRB1) && ++cnt <= timeout) usleep(1000);`.
`hasData k` is the value returned by the `k`-th call to `rlc.has_data`,
`idx` the index of the next call, `remaining` the number of loop bodies the
counter still allows.  Returns the number of sleep iterations executed and
the index of the next `rlc.has_data` call after the loop. -/
def pollLoop (hasData : Nat → Bool) : Nat → Nat → Nat × Nat
  | idx, 0 => (0, idx + 1)
  | idx, remaining + 1 =>
    if hasData idx then
      ((pollLoop hasData (idx + 1) remaining).1 + 1, (pollLoop hasData (idx + 1) remaining).2)
    else
      (0, idx + 1)

/-- Embedding of `ue_stack_lte::switch_off` (lines 176-195): after
requesting the detach, poll `rlc.has_data(SRB1)` at 1 ms intervals for at
most `detach_timeout` iterations; `detach_sent` is the negation of a final
`rlc.has_data` check.  Returns `(detach_sent, number of poll sleeps)`. -/
def switch_off (hasData : Nat → Bool) : Bool × Nat :=
  let r := pollLoop hasData 0 detach_timeout
  (!hasData r.2, r.1)

theorem pollLoop_fst_le (hasData : Nat → Bool) :
    ∀ remaining idx, (pollLoop hasData idx remaining).1 ≤ remaining := by
  intro remaining
  induction remaining with
  | zero => intro idx; exact Nat.le_refl 0
  | succ m ih =>
    intro idx
    rw [pollLoop]
    by_cases h : hasData idx = true
    · rw [if_pos h]
      exact Nat.succ_le_succ (ih (idx + 1))
    · rw [if_neg h]
      exact Nat.zero_le _

theorem pollLoop_snd (hasData : Nat → Bool) :
    ∀ remaining idx,
      (pollLoop hasData idx remaining).2 = idx + (pollLoop hasData idx remaining).1 + 1 := by
  intro remaining
  induction remaining with
  | zero => intro idx; rfl
  | succ m ih =>
    intro idx
    rw [pollLoop]
    by_cases h : hasData idx = true
    · rw [if_pos h]
      show (pollLoop hasData (idx + 1) m).2
        = idx + ((pollLoop hasData (idx + 1) m).1 + 1) + 1
      rw [ih (idx + 1)]
      omega
    · rw [if_neg h]
      rfl

theorem pollLoop_early_exit (hasData : Nat → Bool) :
    ∀ remaining idx, (pollLoop hasData idx remaining).1 < remaining →
      hasData (idx + (pollLoop hasData idx remaining).1) = false := by
  intro remaining
  induction remaining with
  | zero => intro idx h; omega
  | succ m ih =>
    intro idx h
    rw [pollLoop] at h ⊢
    by_cases hd : hasData idx = true
    · rw [if_pos hd] at h ⊢
      have h2 : (pollLoop hasData (idx + 1) m).1 < m := Nat.lt_of_succ_lt_succ h
      have h3 := ih (idx + 1) h2
      show hasData (idx + ((pollLoop hasData (idx + 1) m).1 + 1)) = false
      have harr : idx + ((pollLoop hasData (idx + 1) m).1 + 1)
          = idx + 1 + (pollLoop hasData (idx + 1) m).1 := by omega
      rw [harr]
      exact h3
    · rw [if_neg hd] at h ⊢
      show hasData (idx + 0) = false
      rw [Nat.add_zero]
      exact Bool.eq_false_iff.mpr hd

theorem pollLoop_const_true (hasData : Nat → Bool) (hall : ∀ k, hasData k = true) :
    ∀ remaining idx, pollLoop hasData idx remaining = (remaining, idx + remaining + 1) := by
  intro remaining
  induction remaining with
  | zero => intro idx; rfl
  | succ m ih =>
    intro idx
    rw [pollLoop, if_pos (hall idx), ih (idx + 1)]
    show (m + 1, idx + 1 + m + 1) = (m + 1, idx + (m + 1) + 1)
    have harr : idx + 1 + m + 1 = idx + (m + 1) + 1 := by omega
    rw [harr]

/-- C4: the graceful-detach poll loop sleeps at most `detach_timeout`
(5000) times; if the transport layer's outstanding-data flag never clears,
`switch_off` returns `false` after exactly `detach_timeout` poll
iterations; if the flag clears (and stays cleared) at some poll within the
timeout, `switch_off` returns `true`. -/
theorem switch_off_bound (hasData : Nat → Bool) :
    (switch_off hasData).2 ≤ detach_timeout ∧
    ((∀ k, hasData k = true) → switch_off hasData = (false, detach_timeout)) ∧
    ((∀ j k, j ≤ k → hasData j = false → hasData k = false) →
      (∃ k0, k0 ≤ detach_timeout ∧ hasData k0 = false) →
      (switch_off hasData).1 = true) := by
  refine ⟨pollLoop_fst_le hasData detach_timeout 0, ?_, ?_⟩
  · intro hall
    show (!hasData (pollLoop hasData 0 detach_timeout).2, (pollLoop hasData 0 detach_timeout).1)
      = (false, detach_timeout)
    rw [pollLoop_const_true hasData hall detach_timeout 0]
    show (!hasData (0 + detach_timeout + 1), detach_timeout) = (false, detach_timeout)
    rw [hall (0 + detach_timeout + 1)]
    rfl
  · rintro hmono ⟨k0, hk0, hfalse⟩
    have hle := pollLoop_fst_le hasData detach_timeout 0
    have hsnd := pollLoop_snd hasData detach_timeout 0
    have hfinal : hasData (pollLoop hasData 0 detach_timeout).2 = false := by
      rcases Nat.lt_or_ge (pollLoop hasData 0 detach_timeout).1 detach_timeout with hlt | hge
      · have hexit := pollLoop_early_exit hasData detach_timeout 0 hlt
        refine hmono _ _ ?_ hexit
        omega
      · refine hmono k0 _ ?_ hfalse
        omega
    show (!hasData (pollLoop hasData 0 detach_timeout).2) = true
    rw [hfinal]
    rfl

/-- C4 witness: data never clearing yields `(false, 5000)`; data cleared
from poll 3 onwards yields `true`. -/
theorem switch_off_bound_witness :
    switch_off (fun _ => true) = (false, detach_timeout) ∧
    (switch_off (fun k => decide (k < 3))).1 = true := by
  constructor
  · exact (switch_off_bound (fun _ => true)).2.1 (fun _ => rfl)
  · refine (switch_off_bound (fun k => decide (k < 3))).2.2 ?_ ⟨3, by decide, by decide⟩
    intro j k hjk hj
    simp only [decide_eq_false_iff_not, Nat.not_lt] at hj ⊢
    omega

/-- Result of `ue_stack_lte::init` (`SRSLTE_SUCCESS` / `SRSLTE_ERROR`). -/
inductive InitResult where
  | success
  | error
  deriving DecidableEq, Repr

/-- Outcome of `init`: the returned code, the trace of boundary calls it
made, and the value of the `running` flag afterwards (initialized to
`false` in the constructor). -/
structure InitOutcome where
  result : InitResult
  events : List Event
  running : Bool
  deriving DecidableEq, Repr

/-- The layer wiring calls of `init` (lines 126-130), in source order:
`mac.init`, `rlc.init`, `pdcp.init`, `nas.init`, `rrc.init`. -/
def wiringEvents : List Event :=
  [Event.macInit, Event.rlcInit, Event.pdcpInit, Event.nasInit, Event.rrcInit]

/-- Embedding of `ue_stack_lte::init(args, logger)` (lines 84-136):
after log setup, it opens the configured pcap sinks, initializes the USIM
(early exit with `SRSLTE_ERROR` when that fails), wires the layers, sets
`running = true` and starts the stack thread.  `usim_ok` is the outcome of
`usim->init`. -/
def init (pcap_enable nas_pcap_enable usim_ok : Bool) : InitOutcome :=
  let pcapEvents := (if pcap_enable then [Event.macPcapOpen] else [])
    ++ (if nas_pcap_enable then [Event.nasPcapOpen] else [])
  if usim_ok then
    ⟨InitResult.success,
      pcapEvents ++ [Event.usimInit] ++ wiringEvents
        ++ [Event.setRunning true, Event.startThread],
      true⟩
  else
    ⟨InitResult.error, pcapEvents ++ [Event.usimInit], false⟩

/-- C5: when the USIM cannot be initialized, `init` returns the error
code, `running` stays `false` and the stack thread is never started; on
success it returns the success code with `running = true`, and the thread
start is the very last action, preceded by all five layer wiring calls
(each present exactly once). -/
theorem init_usim_gate (p q : Bool) :
    ((init p q false).result = InitResult.error ∧
     (init p q false).running = false ∧
     Event.startThread ∉ (init p q false).events) ∧
    ((init p q true).result = InitResult.success ∧
     (init p q true).running = true ∧
     (init p q true).events.count Event.startThread = 1 ∧
     (init p q true).events.getLast? = some Event.startThread ∧
     (init p q true).events.count Event.macInit = 1 ∧
     (init p q true).events.count Event.rlcInit = 1 ∧
     (init p q true).events.count Event.pdcpInit = 1 ∧
     (init p q true).events.count Event.nasInit = 1 ∧
     (init p q true).events.count Event.rrcInit = 1 ∧
     (init p q true).events.indexOf Event.macInit
       < (init p q true).events.indexOf Event.startThread ∧
     (init p q true).events.indexOf Event.rlcInit
       < (init p q true).events.indexOf Event.startThread ∧
     (init p q true).events.indexOf Event.pdcpInit
       < (init p q true).events.indexOf Event.startThread ∧
     (init p q true).events.indexOf Event.nasInit
       < (init p q true).events.indexOf Event.startThread ∧
     (init p q true).events.indexOf Event.rrcInit
       < (init p q true).events.indexOf Event.startThread) := by
  cases p <;> cases q <;> decide

/-- State of the lifecycle controller: the `running` flag owned by the
stack object. -/
structure StackState where
  running : Bool
  deriving DecidableEq, Repr

/-- Teardown trace of `ue_stack_lte::stop_impl` (lines 146-164): clear
`running`, stop the credential/session layers (`usim`, `nas`, `rrc`), then
the transport layers (`rlc`, `pdcp`, `mac`), and close whichever pcap
sinks were enabled, last. -/
def stop_impl_events (pcap_enable nas_pcap_enable : Bool) : List Event :=
  [Event.setRunning false, Event.usimStop, Event.nasStop, Event.rrcStop,
    Event.rlcStop, Event.pdcpStop, Event.macStop]
  ++ (if pcap_enable then [Event.macPcapClose] else [])
  ++ (if nas_pcap_enable then [Event.nasPcapClose] else [])

/-- Result of a `stop` call: either the call returns, with the stack
state after it and the trace of teardown calls it performed, or it never
returns — `wait_thread_finish` blocks forever because the shutdown task
was not enqueued and `running` never clears. -/
inductive StopResult where
  | returns (s : StackState) (events : List Event)
  | blocked
  deriving DecidableEq, Repr

/-- Embedding of `ue_stack_lte::stop` (lines 138-144): when not running it
returns immediately with no effect.  When `running`, line 141 enqueues
`stop_impl` on the ue queue with the failable `try_push`, discarding its
result — the push succeeds exactly when the ue queue (occupancy
`ue_queue_len`) is below capacity.  On success the stack thread runs
`stop_impl` and exits, so `wait_thread_finish` returns after the teardown;
on failure the shutdown task is silently dropped, `running` stays `true`
and `wait_thread_finish` blocks forever. -/
def stop (pcap_enable nas_pcap_enable : Bool) (ue_queue_len : Nat) (s : StackState) :
    StopResult :=
  if s.running then
    if ue_queue_len < queue_capacity then
      StopResult.returns ⟨false⟩ (stop_impl_events pcap_enable nas_pcap_enable)
    else
      StopResult.blocked
  else
    StopResult.returns s []

/-- C6 counterexample: on a running stack whose ue queue is full, the
shutdown task is dropped by `try_push` (result discarded, line 141) and
`stop` blocks forever — it does not perform the teardown and leave
`running = false` as the claim states. -/
theorem stop_full_queue_counterexample :
    (StackState.mk true).running = true ∧
    stop true true queue_capacity ⟨true⟩ = StopResult.blocked ∧
    stop true true queue_capacity ⟨true⟩
      ≠ StopResult.returns ⟨false⟩ (stop_impl_events true true) := by
  decide

/-- C6 (amended): on a non-running stack `stop` is a no-op returning
immediately with no teardown; on a running stack, provided the shutdown
task can be enqueued (ue queue below capacity), it performs the teardown
once and returns with `running = false` — but if the ue queue is full the
task is dropped and the call blocks forever.  Whenever a `stop` call
returns, a subsequent `stop` on the resulting state is a no-op, so
teardown is never re-run. -/
theorem stop_idempotent (p q : Bool) (len : Nat) (s : StackState) :
    (s.running = false → stop p q len s = StopResult.returns s []) ∧
    (s.running = true → len < queue_capacity →
      stop p q len s = StopResult.returns ⟨false⟩ (stop_impl_events p q)) ∧
    (queue_capacity ≤ len → s.running = true → stop p q len s = StopResult.blocked) ∧
    (∀ s2 ev len2, stop p q len s = StopResult.returns s2 ev →
      stop p q len2 s2 = StopResult.returns s2 []) := by
  obtain ⟨r⟩ := s
  refine ⟨?_, ?_, ?_, ?_⟩
  · intro h
    rw [stop]
    cases r
    · rfl
    · exact absurd h (by decide)
  · intro h hlen
    rw [stop]
    cases r
    · exact absurd h (by decide)
    · rw [if_pos rfl, if_pos hlen]
  · intro hlen h
    rw [stop]
    cases r
    · exact absurd h (by decide)
    · rw [if_pos rfl, if_neg (by omega)]
  · intro s2 ev len2 hret
    rw [stop] at hret
    cases r
    · rw [if_neg (by decide)] at hret
      obtain ⟨h1, h2⟩ := StopResult.returns.inj hret
      rw [stop, ← h1, if_neg (by decide)]
    · rw [if_pos rfl] at hret
      by_cases hlen : len < queue_capacity
      · rw [if_pos hlen] at hret
        obtain ⟨h1, h2⟩ := StopResult.returns.inj hret
        rw [stop, ← h1, if_neg (by decide)]
      · rw [if_neg hlen] at hret
        exact StopResult.noConfusion hret

/-- C6 witness: the non-running no-op, the running teardown with queue
space, the full-queue block, and the idempotence of a returned call. -/
theorem stop_idempotent_witness :
    (StackState.mk false).running = false ∧
    stop true true 0 ⟨false⟩ = StopResult.returns ⟨false⟩ [] ∧
    (StackState.mk true).running = true ∧ (0 : Nat) < queue_capacity ∧
    stop true true 0 ⟨true⟩ = StopResult.returns ⟨false⟩ (stop_impl_events true true) ∧
    queue_capacity ≤ queue_capacity ∧
    stop true true queue_capacity ⟨true⟩ = StopResult.blocked ∧
    stop true true 5 ⟨false⟩ = StopResult.returns ⟨false⟩ [] := by
  refine ⟨rfl, (stop_idempotent true true 0 ⟨false⟩).1 rfl, rfl, by decide,
    (stop_idempotent true true 0 ⟨true⟩).2.1 rfl (by decide), Nat.le_refl _,
    (stop_idempotent true true queue_capacity ⟨true⟩).2.2.1 (Nat.le_refl _) rfl, ?_⟩
  exact (stop_idempotent true true 0 ⟨true⟩).2.2.2 ⟨false⟩ (stop_impl_events true true) 5
    ((stop_idempotent true true 0 ⟨true⟩).2.1 rfl (by decide))

/-- C7: the teardown runs `running := false` first, then stops `usim`,
`nas`, `rrc` (credential/session layers), then `rlc`, `pdcp`, `mac`
(transport layers), in that order and each exactly once, and the pcap
sinks — exactly the ones enabled — are closed after every layer stop. -/
theorem stop_impl_teardown_order (p q : Bool) :
    (stop_impl_events p q).head? = some (Event.setRunning false) ∧
    (stop_impl_events p q).count (Event.setRunning false) = 1 ∧
    (stop_impl_events p q).count Event.usimStop = 1 ∧
    (stop_impl_events p q).count Event.nasStop = 1 ∧
    (stop_impl_events p q).count Event.rrcStop = 1 ∧
    (stop_impl_events p q).count Event.rlcStop = 1 ∧
    (stop_impl_events p q).count Event.pdcpStop = 1 ∧
    (stop_impl_events p q).count Event.macStop = 1 ∧
    (stop_impl_events p q).count Event.macPcapClose = (if p then 1 else 0) ∧
    (stop_impl_events p q).count Event.nasPcapClose = (if q then 1 else 0) ∧
    (stop_impl_events p q).indexOf Event.usimStop
      < (stop_impl_events p q).indexOf Event.nasStop ∧
    (stop_impl_events p q).indexOf Event.nasStop
      < (stop_impl_events p q).indexOf Event.rrcStop ∧
    (stop_impl_events p q).indexOf Event.rrcStop
      < (stop_impl_events p q).indexOf Event.rlcStop ∧
    (stop_impl_events p q).indexOf Event.rlcStop
      < (stop_impl_events p q).indexOf Event.pdcpStop ∧
    (stop_impl_events p q).indexOf Event.pdcpStop
      < (stop_impl_events p q).indexOf Event.macStop ∧
    (stop_impl_events p q).indexOf Event.macStop
      < (stop_impl_events p q).indexOf Event.macPcapClose ∧
    (stop_impl_events p q).indexOf Event.macStop
      < (stop_impl_events p q).indexOf Event.nasPcapClose := by
  cases p <;> cases q <;> decide

/-- A task enqueued on the sync-origin queue: the closures bound by
`in_sync`, `out_of_sync` and `run_tti`. -/
inductive SyncTask where
  | inSyncTask
  | outOfSyncTask
  | runTtiTask (tti : Nat) (tti_jump : Nat)
  deriving DecidableEq, Repr

/-- Blocking push of the multiqueue dispatcher (`push`): waits until the
queue has space, then appends — it never drops the task, whatever the
queue occupancy. -/
def push_blocking (q : List α) (t : α) : List α := q ++ [t]

/-- Embedding of `ue_stack_lte::in_sync` (lines 269-272): a blocking push
of the `rrc.in_sync()` task onto the sync queue. -/
def in_sync (sync_queue : List SyncTask) : List SyncTask :=
  push_blocking sync_queue SyncTask.inSyncTask

/-- Embedding of `ue_stack_lte::out_of_sync` (lines 274-277): a blocking
push of the `rrc.out_of_sync()` task onto the sync queue. -/
def out_of_sync (sync_queue : List SyncTask) : List SyncTask :=
  push_blocking sync_queue SyncTask.outOfSyncTask

/-- Embedding of `ue_stack_lte::run_tti` (lines 279-282): a blocking push
of the `run_tti_impl(tti, tti_jump)` task onto the sync queue. -/
def run_tti (sync_queue : List SyncTask) (tti tti_jump : Nat) : List SyncTask :=
  push_blocking sync_queue (SyncTask.runTtiTask tti tti_jump)

/-- C8: `run_tti`, `in_sync` and `out_of_sync` all use the blocking push
on the sync queue: for every queue state — including one at or above the
non-blocking capacity — the task is appended at the tail and nothing is
dropped. -/
theorem sync_events_never_dropped (q : List SyncTask) (t n : Nat) :
    in_sync q = push_blocking q SyncTask.inSyncTask ∧
    out_of_sync q = push_blocking q SyncTask.outOfSyncTask ∧
    run_tti q t n = push_blocking q (SyncTask.runTtiTask t n) ∧
    in_sync q = q ++ [SyncTask.inSyncTask] ∧
    out_of_sync q = q ++ [SyncTask.outOfSyncTask] ∧
    run_tti q t n = q ++ [SyncTask.runTtiTask t n] ∧
    (in_sync q).length = q.length + 1 ∧
    (out_of_sync q).length = q.length + 1 ∧
    (run_tti q t n).length = q.length + 1 := by
  refine ⟨rfl, rfl, rfl, rfl, rfl, rfl, ?_, ?_, ?_⟩ <;>
    simp [in_sync, out_of_sync, run_tti, push_blocking]

/-- EMM states of the NAS layer interface (modelled from the srsLTE
interface header, outside the excerpt); the executor only compares
against `EMM_STATE_REGISTERED`. -/
inductive EmmState where
  | null_state
  | deregistered
  | registered_initiated
  | registered
  | service_request_initiated
  | deregistered_initiated
  | tau_initiated
  deriving DecidableEq, Repr

/-- RRC states of the RRC layer interface (modelled from the srsLTE
interface header, outside the excerpt); the executor only compares
against `RRC_STATE_CONNECTED`. -/
inductive RrcState where
  | idle
  | connected
  | leave_connected
  deriving DecidableEq, Repr

/-- The fields of `stack_metrics_t` that `get_metrics` inspects; the MAC
and RLC sub-metrics are filled in but never read by this function and are
abstracted away. -/
structure StackMetrics where
  nas_state : EmmState
  rrc_state : RrcState
  deriving DecidableEq, Repr

/-- Result of a `get_metrics` call: either the call returns, delivering
the snapshot into the caller's structure together with the boolean return
value, or the caller never returns — it blocks forever in
`pending_stack_metrics.wait_pop()` because the metrics task was dropped
and no snapshot is ever pushed. -/
inductive MetricsResult where
  | returns (snapshot : StackMetrics) (registered_and_connected : Bool)
  | blocked
  deriving DecidableEq, Repr

/-- Embedding of `ue_stack_lte::get_metrics` (lines 211-225): line 214
enqueues the metrics task on the ue queue with the failable `try_push`,
ignoring its result — the push succeeds exactly when the ue queue
(occupancy `ue_queue_len`) is below capacity.  On success the executor
runs the task, which computes `snapshot` and pushes it through
`pending_stack_metrics`; the caller pops it into `*metrics` and the
function returns whether NAS is `EMM_STATE_REGISTERED` and RRC is
`RRC_STATE_CONNECTED`.  On failure the task is dropped and `wait_pop`
blocks forever. -/
def get_metrics (ue_queue_len : Nat) (snapshot : StackMetrics) : MetricsResult :=
  if ue_queue_len < queue_capacity then
    MetricsResult.returns snapshot
      (snapshot.nas_state == EmmState.registered && snapshot.rrc_state == RrcState.connected)
  else
    MetricsResult.blocked

/-- C10 counterexample: with the ue queue full, the metrics task is
dropped (`try_push` result ignored, line 214) and the caller blocks
forever — no snapshot is delivered and nothing is returned, even for a
registered-and-connected snapshot. -/
theorem get_metrics_full_queue_counterexample :
    get_metrics queue_capacity ⟨EmmState.registered, RrcState.connected⟩
      = MetricsResult.blocked ∧
    get_metrics queue_capacity ⟨EmmState.registered, RrcState.connected⟩
      ≠ MetricsResult.returns ⟨EmmState.registered, RrcState.connected⟩ true := by
  decide

/-- C10 (amended): provided the metrics task can be enqueued (ue queue
below capacity), `get_metrics` delivers the executor-computed snapshot and
returns `true` exactly when the snapshot's NAS state is registered and its
RRC state is connected, `false` for every other combination; with the ue
queue full the task is dropped and the caller blocks forever with no
snapshot delivered. -/
theorem get_metrics_return_value (len : Nat) (s : StackMetrics) :
    (len < queue_capacity →
      get_metrics len s = MetricsResult.returns s
        (s.nas_state == EmmState.registered && s.rrc_state == RrcState.connected)) ∧
    ((s.nas_state == EmmState.registered && s.rrc_state == RrcState.connected) = true ↔
      s.nas_state = EmmState.registered ∧ s.rrc_state = RrcState.connected) ∧
    (queue_capacity ≤ len → get_metrics len s = MetricsResult.blocked) := by
  obtain ⟨a, b⟩ := s
  refine ⟨?_, ?_, ?_⟩
  · intro h
    rw [get_metrics, if_pos h]
  · cases a <;> cases b <;> simp
  · intro h
    rw [get_metrics, if_neg (by omega)]

/-- C10 witness: delivery and return value with queue space for a
registered-and-connected snapshot, and the blocked outcome at a full
queue. -/
theorem get_metrics_return_value_witness :
    ((0 : Nat) < queue_capacity ∧
      get_metrics 0 ⟨EmmState.registered, RrcState.connected⟩
        = MetricsResult.returns ⟨EmmState.registered, RrcState.connected⟩
            (EmmState.registered == EmmState.registered
              && RrcState.connected == RrcState.connected)) ∧
    (queue_capacity ≤ queue_capacity ∧
      get_metrics queue_capacity ⟨EmmState.deregistered, RrcState.idle⟩
        = MetricsResult.blocked) := by
  refine ⟨⟨by decide, ?_⟩, ⟨Nat.le_refl _, ?_⟩⟩
  · exact (get_metrics_return_value 0 ⟨EmmState.registered, RrcState.connected⟩).1 (by decide)
  · exact (get_metrics_return_value queue_capacity
      ⟨EmmState.deregistered, RrcState.idle⟩).2.2 (Nat.le_refl _)

end UeStackLte
